import Mathlib

/-!
Shallow embedding of the GP-MPC repository (`gp_mpc/gp_class.py` and
`gp_mpc/mpc_class.py`).

Machine arithmetic is modelled over `ℚ`.  The symbolic-expression
collaborator (casadi) is modelled by evaluating every symbolic expression
at an assignment of the decision variables and parameters; external
collaborators (the compiled kernel functions produced by `build_gp`, the
NLP solver, the plant simulator, scipy's normal quantile) appear as
abstract parameters or opaque-looking structure fields, since their code
is outside the repository core.
-/

namespace GPMPC

/-- State/output vectors of dimension `n`. -/
abbrev Vec (n : ℕ) := Fin n → ℚ

/-- Square `n × n` covariance-shaped matrices. -/
abbrev Cov (n : ℕ) := Matrix (Fin n) (Fin n) ℚ

/-- The `(Nx, Nx)` joint state/input covariance, `Nx = Ny + Nu`,
indexed by the sum type so that the four blocks of
`covar_func` (mpc_class.py lines 215-221) are explicit. -/
abbrev CovFull (Ny Nu : ℕ) := Matrix (Fin Ny ⊕ Fin Nu) (Fin Ny ⊕ Fin Nu) ℚ

/-- Type of a compiled one-step prediction function
`(state, input, input covariance) → (mean, covariance)`
(`self.__predict` in gp_class.py). -/
abbrev PredFun (Ny Nu : ℕ) :=
  Vec Ny → Vec Nu → CovFull Ny Nu → Vec Ny × Cov Ny

/-- Lower-triangular view of a square matrix: embedding of
`ca.MX(ca.Sparsity.lower(Ny), var['L', t])` (mpc_class.py lines 283, 315),
which scatters the packed `Ny (Ny+1)/2` decision-variable entries into a
lower-triangular matrix.  We store the packed entries as the lower part of
a square matrix and zero the (never read) strictly-upper part. -/
def lowerMat {n : ℕ} (L : Cov n) : Cov n :=
  Matrix.of fun i j => if (j : ℕ) ≤ (i : ℕ) then L i j else 0

/-- `L_to_cov_func` from mpc_class.py line 258: `L @ L.T`. -/
def L_to_cov {n : ℕ} (L : Cov n) : Cov n :=
  L * L.transpose

/- ------------------------------------------------------------------ -/
/- Gaussian Process model (gp_class.py)                                -/
/- ------------------------------------------------------------------ -/

/-- The data a `GP` object owns that the claims touch: the per-output
standardization statistics (`self.__meanY`, `self.__stdY`), the
normalization flag, and the compiled kernel functions the prediction
variants are assembled from.  `meanFun`, `covarFun`, `taCovar` stand for
`self.__mean`, `self.__covar`, `self.__TA_covar` (built by the external
`build_gp` / `build_TA_cov` of gp_functions.py, outside the core);
`emPredict`, `oldMePredict`, `oldTaPredict` stand for the compiled
`gp_exact_moment`, `gp`, `gp_taylor_approx` externals. -/
structure GPBase (Ny Nu : ℕ) where
  meanY : Vec Ny
  stdY : Vec Ny
  normalize : Bool
  meanFun : Vec Ny → Vec Nu → Vec Ny
  covarFun : Vec Ny → Vec Nu → Cov Ny
  taCovar : Vec Ny → Vec Nu → CovFull Ny Nu → Cov Ny
  emPredict : PredFun Ny Nu
  oldMePredict : PredFun Ny Nu
  oldTaPredict : PredFun Ny Nu

/-- A constructed `GP` object: the base data, the currently selected
method tag (`self.__gp_method`) and the currently installed prediction
function (`self.__predict`). -/
structure GP (Ny Nu : ℕ) where
  base : GPBase Ny Nu
  gp_method : String
  predictFun : PredFun Ny Nu

/-- The `if gp_method is '...'` dispatch chain of `GP.set_method`
(gp_class.py lines 99-124), returning the prediction function assembled
for a recognized variant name and `none` for an unrecognized one. -/
def selectPredict {Ny Nu : ℕ} (b : GPBase Ny Nu) (m : String) :
    Option (PredFun Ny Nu) :=
  if m = "ME" then some fun x u _ => (b.meanFun x u, b.covarFun x u)
  else if m = "TA" then some fun x u c => (b.meanFun x u, b.taCovar x u c)
  else if m = "EM" then some b.emPredict
  else if m = "old_ME" then some b.oldMePredict
  else if m = "old_TA" then some b.oldTaPredict
  else none

/-- `GP.set_method` (gp_class.py lines 91-124).  The method tag is
overwritten before the dispatch (line 97); an unrecognized name raises
`NameError('No GP method called: ' + gp_method)`, modelled as the
returned error message, and installs no prediction function (the
previously installed one is kept). -/
def set_method {Ny Nu : ℕ} (g : GP Ny Nu) (m : String) :
    GP Ny Nu × Option String :=
  match selectPredict g.base m with
  | some f => ({ g with gp_method := m, predictFun := f }, none)
  | none => ({ g with gp_method := m }, some ("No GP method called: " ++ m))

/-- `GP.__init__` ends with `self.set_method(gp_method)` (gp_class.py
line 76); an unrecognized variant name at construction raises before any
object exists. -/
def gpInit {Ny Nu : ℕ} (b : GPBase Ny Nu) (m : String) :
    Except String (GP Ny Nu) :=
  match selectPredict b m with
  | some f => .ok ⟨b, m, f⟩
  | none => .error ("No GP method called: " ++ m)

/-- `GP.standardize` (gp_class.py lines 144-146): `(Y - meanY) / stdY`,
componentwise per output dimension (numpy broadcasting applies the same
transform to every row of a 2-D array). -/
def standardize {Ny Nu : ℕ} (b : GPBase Ny Nu) (Y : Vec Ny) : Vec Ny :=
  fun i => (Y i - b.meanY i) / b.stdY i

/-- `GP.inverse_mean` (gp_class.py lines 157-158): `Y * stdY + meanY`. -/
def inverse_mean {Ny Nu : ℕ} (b : GPBase Ny Nu) (Y : Vec Ny) : Vec Ny :=
  fun i => Y i * b.stdY i + b.meanY i

/-- `GP.inverse_covariance` (gp_class.py lines 160-162): the body is
`return covariance` (the scaling is commented out), a no-op
pass-through. -/
def inverse_covariance {Ny Nu : ℕ} (_b : GPBase Ny Nu) (c : Cov Ny) :
    Cov Ny :=
  c

/-- `GP.predict` (gp_class.py lines 132-141): standardize the state when
normalization is enabled, evaluate the selected prediction function,
de-standardize the returned mean and pass the covariance through
`inverse_covariance`. -/
def GP.predict {Ny Nu : ℕ} (g : GP Ny Nu) (x : Vec Ny) (u : Vec Nu)
    (cov : CovFull Ny Nu) : Vec Ny × Cov Ny :=
  let x_s := if g.base.normalize then standardize g.base x else x
  let mc := g.predictFun x_s u cov
  if g.base.normalize then
    (inverse_mean g.base mc.1, inverse_covariance g.base mc.2)
  else mc

/- ------------------------------------------------------------------ -/
/- MPC problem construction (mpc_class.py, MPC.__init__)               -/
/- ------------------------------------------------------------------ -/

/-- The NLP decision variables (the `ctools.struct_symMX` of
mpc_class.py lines 171-177), evaluated at an assignment.  The source
allocates `Nt+1` mean vectors, `Nt+1` raw covariance vectors, `Nt+1`
packed lower-triangular Cholesky factors, `Nt` control perturbations and
`Nt+1` slacks; we index by `ℕ` and only indices up to `Nt` are ever
read.  `covariance t` is the `Ny*Ny` entry block reshaped to a matrix;
`L t` holds the packed Cholesky entries as the lower part of a square
matrix (see `lowerMat`). -/
structure Vars (Ny Nu : ℕ) where
  mean : ℕ → Vec Ny
  covariance : ℕ → Cov Ny
  L : ℕ → Cov Ny
  v : ℕ → Vec Nu
  eps : ℕ → ℚ

/-- The NLP parameters (mpc_class.py lines 128-137): current measured
state, reference, initial covariance, previous control, feedback gain and
terminal penalty (`con_par` carries no entries on the default path
`num_con_par = 0`). -/
structure Params (Ny Nu : ℕ) where
  mean0 : Vec Ny
  meanRef : Vec Ny
  covariance0 : Cov Ny
  u0 : Vec Nu
  K : Matrix (Fin Nu) (Fin Ny) ℚ
  P : Cov Ny

/-- The feedback law `u_func` (mpc_class.py lines 162-167):
`u = v + K·mean` with feedback, `u = v` without. -/
def u_func {Ny Nu : ℕ} (feedback : Bool) (K : Matrix (Fin Nu) (Fin Ny) ℚ)
    (mean : Vec Ny) (v : Vec Nu) : Vec Nu :=
  if feedback then v + K.mulVec mean else v

/-- `covar_u_func` (mpc_class.py lines 209-210): `K @ covar_x @ K.T`. -/
def covar_u_func {Ny Nu : ℕ} (K : Matrix (Fin Nu) (Fin Ny) ℚ)
    (covar_x : Cov Ny) : Cov Nu :=
  K * covar_x * K.transpose

/-- `cov_xu_func` (mpc_class.py lines 212-213): `covar_x @ K.T`. -/
def cov_xu_func {Ny Nu : ℕ} (covar_x : Cov Ny)
    (K : Matrix (Fin Nu) (Fin Ny) ℚ) : Matrix (Fin Ny) (Fin Nu) ℚ :=
  covar_x * K.transpose

/-- `covar_func` (mpc_class.py lines 215-221): the `(Nx, Nx)` joint
state/input covariance assembled from the four blocks. -/
def covar_func {Ny Nu : ℕ} (covar_x : Cov Ny)
    (K : Matrix (Fin Nu) (Fin Ny) ℚ) : CovFull Ny Nu :=
  Matrix.fromBlocks covar_x (cov_xu_func covar_x K)
    (cov_xu_func covar_x K).transpose (covar_u_func K covar_x)

/-- One evaluated scalar constraint row together with its lower and
upper bound; `none` stands for an infinite bound (`-np.inf` / `np.inf`
appended by the source). -/
abbrev ConRow := ℚ × Option ℚ × Option ℚ

/-- `con_func` inside `MPC.__constraint` (mpc_class.py lines 709-712):
`H @ mean + r * H @ ca.diag(S)`, where `H` is one row and `ca.diag`
extracts the diagonal of the matrix argument. -/
def con_func {Ny : ℕ} (mean : Vec Ny) (S : Cov Ny) (H : Vec Ny)
    (r : ℚ) : ℚ :=
  (∑ j, H j * mean j) + r * (∑ j, H j * S j j)

/-- `MPC.__constraint` (mpc_class.py lines 693-725): for each state
dimension append the upper-tail row (bounded above by `ub i`) and the
lower-tail row (bounded below by `lb i`). -/
def constraint {Ny : ℕ} (mean : Vec Ny) (S : Cov Ny) (H : Cov Ny)
    (quantile ub lb : Vec Ny) : List ConRow :=
  (List.finRange Ny).foldl
    (fun acc i =>
      acc ++ [(con_func mean S (H i) (quantile i), none, some (ub i)),
              (con_func mean S (H i) (-quantile i), some (lb i), none)])
    []

/-- The hard input box constraints (mpc_class.py lines 337-344): after
defaulting, `uub` and `ulb` are never `None`, so both blocks are always
appended; each row is `u_t` with a one-sided finite bound. -/
def inputBlock {Nu : ℕ} (u_t : Vec Nu) (uub ulb : Vec Nu) : List ConRow :=
  ((List.finRange Nu).map fun j => (u_t j, none, some (uub j)))
    ++ ((List.finRange Nu).map fun j => (u_t j, some (ulb j), none))

/-- The inequality-constraint list accumulated by the construction loop
(mpc_class.py lines 278-354) on the default path (`discrete_method='gp'`,
`inequality_constraints=None`): per step the chance-constraint block
built from the next-step mean and the next-step lower-triangular Cholesky
factor (line 325 passes `L_x_next`, not the reconstructed covariance),
followed by the input box constraints on `u_t`. -/
def conIneqLoop {Ny Nu : ℕ} (V : Vars Ny Nu) (p : Params Ny Nu)
    (quantile xub xlb : Vec Ny) (uub ulb : Vec Nu) (feedback : Bool)
    (Nt : ℕ) : List ConRow :=
  (List.range Nt).foldl
    (fun acc t =>
      acc ++ constraint (V.mean (t + 1)) (lowerMat (V.L (t + 1))) 1
              quantile xub xlb
          ++ inputBlock (u_func feedback p.K (V.mean t) (V.v t)) uub ulb)
    []

/-- The terminal-constraint block (mpc_class.py lines 368-372): appended
only when a terminal constraint value is supplied; each state dimension
gets the row `mean_Nt - mean_ref` bounded by `± terminal_constraint`. -/
def terminalBlock {Ny Nu : ℕ} (V : Vars Ny Nu) (ref : Vec Ny) (Nt : ℕ) :
    Option ℚ → List ConRow
  | none => []
  | some tc =>
      (List.finRange Ny).map fun i => (V.mean Nt i - ref i, some (-tc), some tc)

/-- The full inequality-constraint list handed to the solver: the loop
constraints followed by the optional terminal block (mpc_class.py
lines 368-375). -/
def conIneqFull {Ny Nu : ℕ} (V : Vars Ny Nu) (p : Params Ny Nu)
    (quantile xub xlb : Vec Ny) (uub ulb : Vec Nu) (feedback : Bool)
    (Nt : ℕ) (tc : Option ℚ) : List ConRow :=
  conIneqLoop V p quantile xub xlb uub ulb feedback Nt
    ++ terminalBlock V p.meanRef Nt tc

/-- Whether an evaluated constraint row lies within its bounds. -/
def satCon (c : ConRow) : Bool :=
  (match c.2.1 with
   | none => true
   | some l => decide (l ≤ c.1)) &&
  (match c.2.2 with
   | none => true
   | some u => decide (c.1 ≤ u))

/- Cost functions. -/

/-- `x.T @ M @ x`, the `sqnorm` helper of the cost functions. -/
def sqnorm {n : ℕ} (M : Cov n) (x : Vec n) : ℚ :=
  ∑ i, x i * M.mulVec x i

/-- `MPC.__cost_l` (mpc_class.py lines 669-689), the quadratic stage
cost with the default scaling `s = 1`:
`(x-x_ref)ᵀQ(x-x_ref) + uᵀRu + ΔuᵀSΔu + tr(Q covar_x) + tr(R covar_u)`. -/
def cost_l {Ny Nu : ℕ} (x x_ref : Vec Ny) (covar_x : Cov Ny) (u : Vec Nu)
    (covar_u : Cov Nu) (delta_u : Vec Nu) (Q : Cov Ny) (R S : Cov Nu) : ℚ :=
  sqnorm Q (x - x_ref) + sqnorm R u + sqnorm S delta_u
    + (Q * covar_x).trace + (R * covar_u).trace

/-- `MPC.__cost_lf` (mpc_class.py lines 610-621), the quadratic terminal
cost with the default scaling `s = 1`:
`(x-x_ref)ᵀP(x-x_ref) + tr(P covar_x)`. -/
def cost_lf {Ny : ℕ} (x x_ref : Vec Ny) (covar_x : Cov Ny) (P : Cov Ny) : ℚ :=
  sqnorm P (x - x_ref) + (P * covar_x).trace

/-- One iteration of the objective accumulation in the construction loop
(mpc_class.py lines 278-359) with the `quad` cost: the accumulator
carries `(obj, u_past)`.  `u_past` is initialized to the `u_0` parameter
before the loop (line 270); inside the loop the source computes
`u_delta = u_t - u_past`, adds the stage cost plus the slack penalty, and
then executes `u_t = u_past` (line 359), a rebinding of the local `u_t`
that leaves `u_past` untouched (mirrored by the dead `_u_t` binding). -/
def objStep {Ny Nu : ℕ} (V : Vars Ny Nu) (p : Params Ny Nu)
    (Q : Cov Ny) (R S : Cov Nu) (lam : ℚ) (feedback : Bool) :
    ℚ × Vec Nu → ℕ → ℚ × Vec Nu :=
  fun acc t =>
    let u_past := acc.2
    let mean_t := V.mean t
    let u_t := u_func feedback p.K mean_t (V.v t)
    let covar_x_t := L_to_cov (lowerMat (V.L t))
    let cov_u := covar_u_func p.K covar_x_t
    let u_delta := u_t - u_past
    let obj := acc.1
      + cost_l mean_t p.meanRef covar_x_t u_t cov_u u_delta Q R S
      + lam * V.eps t
    let _u_t := u_past
    (obj, u_past)

/-- The `quad` NLP objective built by `MPC.__init__` (lines 278-360):
the loop-accumulated stage costs followed by the terminal cost, which the
source evaluates at `var['covariance', Nt].reshape((Ny, Ny))` — the raw
covariance decision variable at the final step (line 360). -/
def objQuad {Ny Nu : ℕ} (V : Vars Ny Nu) (p : Params Ny Nu)
    (Q : Cov Ny) (R S : Cov Nu) (lam : ℚ) (feedback : Bool) (Nt : ℕ) : ℚ :=
  ((List.range Nt).foldl (objStep V p Q R S lam feedback) (0, p.u0)).1
    + cost_lf (V.mean Nt) p.meanRef (V.covariance Nt) p.P

/-- The `quad` objective as claim C2 states it: identical to `objQuad`
except that the terminal trace term is evaluated at the
Cholesky-reconstructed covariance `L_Nt · L_Ntᵀ` of the tracked horizon
trajectory.  Stated from the claim text, for comparison with `objQuad`. -/
def objQuadSpec {Ny Nu : ℕ} (V : Vars Ny Nu) (p : Params Ny Nu)
    (Q : Cov Ny) (R S : Cov Nu) (lam : ℚ) (feedback : Bool) (Nt : ℕ) : ℚ :=
  ((List.range Nt).foldl (objStep V p Q R S lam feedback) (0, p.u0)).1
    + cost_lf (V.mean Nt) p.meanRef (L_to_cov (lowerMat (V.L Nt))) p.P

/-- The value of the loop-carried `u_past` accumulator entering stage
`t` of the objective construction. -/
def u_past_at {Ny Nu : ℕ} (V : Vars Ny Nu) (p : Params Ny Nu)
    (Q : Cov Ny) (R S : Cov Nu) (lam : ℚ) (feedback : Bool) (t : ℕ) :
    Vec Nu :=
  ((List.range t).foldl (objStep V p Q R S lam feedback) (0, p.u0)).2

/-- The input-rate difference `u_delta` computed at stage `t` of the
objective construction: the stage control minus the `u_past` value seen
by that iteration. -/
def u_delta_at {Ny Nu : ℕ} (V : Vars Ny Nu) (p : Params Ny Nu)
    (Q : Cov Ny) (R S : Cov Nu) (lam : ℚ) (feedback : Bool) (t : ℕ) :
    Vec Nu :=
  u_func feedback p.K (V.mean t) (V.v t)
    - u_past_at V p Q R S lam feedback t

/- Equality constraints. -/

/-- Row-major flattening of the entries of a square matrix, the
embedding of `.reshape((Ny*Ny, 1))` for membership purposes. -/
def matEntries {n : ℕ} (M : Cov n) : List ℚ :=
  (List.finRange n).flatMap fun i => (List.finRange n).map fun j => M i j

/-- The equality-constraint residual list built by `MPC.__init__`
(lines 260-321) on the default `gp` path, evaluated at an assignment:
the initial-condition residuals `mean_0 - mean_0_param` and
`covariance_0 - covariance_0_param`, then per step the continuity
residuals `mean_next_pred - mean_{t+1}` and
`covar_x_next_pred - L_{t+1}·L_{t+1}ᵀ`, with the one-step prediction
delegated to the GP prediction function `predictF` evaluated at the
joint covariance `covar_func`. -/
def conEqList {Ny Nu : ℕ} (V : Vars Ny Nu) (p : Params Ny Nu)
    (predictF : PredFun Ny Nu) (feedback : Bool) (Nt : ℕ) : List ℚ :=
  (List.range Nt).foldl
    (fun acc t =>
      acc ++ ((List.finRange Ny).map fun i =>
               (predictF (V.mean t) (u_func feedback p.K (V.mean t) (V.v t))
                  (covar_func (L_to_cov (lowerMat (V.L t))) p.K)).1 i
                 - V.mean (t + 1) i)
          ++ matEntries
               ((predictF (V.mean t) (u_func feedback p.K (V.mean t) (V.v t))
                  (covar_func (L_to_cov (lowerMat (V.L t))) p.K)).2
                 - L_to_cov (lowerMat (V.L (t + 1)))))
    (((List.finRange Ny).map fun i => V.mean 0 i - p.mean0 i)
      ++ matEntries (V.covariance 0 - p.covariance0))

/-- The equality-constraint lower bounds: `np.zeros((num_eq_con,))`
(mpc_class.py line 365). -/
def conEqLbList {Ny Nu : ℕ} (V : Vars Ny Nu) (p : Params Ny Nu)
    (predictF : PredFun Ny Nu) (feedback : Bool) (Nt : ℕ) : List ℚ :=
  List.replicate (conEqList V p predictF feedback Nt).length 0

/-- The equality-constraint upper bounds: `np.zeros((num_eq_con,))`
(mpc_class.py line 366). -/
def conEqUbList {Ny Nu : ℕ} (V : Vars Ny Nu) (p : Params Ny Nu)
    (predictF : PredFun Ny Nu) (feedback : Bool) (Nt : ℕ) : List ℚ :=
  List.replicate (conEqList V p predictF feedback Nt).length 0

/- Construction-time dispatch and gating. -/

/-- Tag for the selected cost-function variant (the pair of compiled
stage/terminal cost functions installed by `__set_cost_function`); the
`quad` variant installs `cost_l` / `cost_lf` above, the `sat` variant
installs the saturating costs (transcendental, external to this
development). -/
inductive CostVariant where
  | quad : CostVariant
  | sat : CostVariant
deriving DecidableEq

/-- `MPC.__set_cost_function` (mpc_class.py lines 580-607): the
`if costFunc is '...'` dispatch; an unrecognized name raises
`NameError('No cost function called: ' + costFunc)` and installs
nothing. -/
def set_cost_function (costFunc : String) : Except String CostVariant :=
  if costFunc = "quad" then .ok .quad
  else if costFunc = "sat" then .ok .sat
  else .error ("No cost function called: " ++ costFunc)

/-- Whether `GP.set_method` recognizes a variant name (the guard of the
dispatch chain in `selectPredict`). -/
def gpMethodKnown (m : String) : Bool :=
  m = "ME" || m = "TA" || m = "EM" || m = "old_ME" || m = "old_TA"

/-- mpc_class.py lines 141-142: `if discrete_method is 'gp':
self.__gp.set_method(gp_method)`; an unrecognized variant name makes the
delegated call raise. -/
def gpGate (discrete_method gp_method : String) : Except String Unit :=
  if discrete_method = "gp" then
    if gpMethodKnown gp_method then .ok ()
    else .error ("No GP method called: " ++ gp_method)
  else .ok ()

/-- The unconditional read `solver_opts['expand']` (mpc_class.py
line 144): subscripting `None` raises `TypeError`, a mapping without the
key raises `KeyError`.  Solver options are modelled as an association
list of boolean-valued options. -/
def readExpand : Option (List (String × Bool)) → Except String Bool
  | none => .error "TypeError: NoneType object is not subscriptable"
  | some opts =>
      match opts.lookup "expand" with
      | some b => .ok b
      | none => .error "KeyError: expand"

/-- mpc_class.py lines 144-145: the expand/exact-discretization clash
check, which also performs the unconditional `solver_opts['expand']`
read. -/
def expandGate (discrete_method : String)
    (solver_opts : Option (List (String × Bool))) : Except String Unit :=
  match readExpand solver_opts with
  | .error e => .error e
  | .ok e =>
      if e ≠ false ∧ discrete_method = "exact" then
        .error "Cannot use exact discrete system with expanded graph"
      else .ok ()

/-- The fail-fast prefix of `MPC.__init__` in source order (lines
141-156): the GP method selection, the `solver_opts['expand']` read with
the exact-discretization clash check, then the cost-function dispatch.
Reaching `.ok` is a prerequisite for ever building the solver object
(`ca.nlpsol`, line 396). -/
def mpcInitChecks (discrete_method gp_method costFunc : String)
    (solver_opts : Option (List (String × Bool))) :
    Except String CostVariant :=
  match gpGate discrete_method gp_method with
  | .error e => .error e
  | .ok _ =>
      match expandGate discrete_method solver_opts with
      | .error e => .error e
      | .ok _ => set_cost_function costFunc

/- ------------------------------------------------------------------ -/
/- Receding-horizon solve loop (mpc_class.py, MPC.solve)               -/
/- ------------------------------------------------------------------ -/

/-- What `MPC.solve` returns plus instrumentation: the (pre-allocated,
initial-value-filled) state and input histories, the number of NLP-solver
invocations issued, and whether the loop ran to completion (`false`
records the early return of the simulator-instability handler,
lines 568-572 — an ordinary return, not a propagated exception). -/
structure SolveResult (α β : Type) where
  mean : ℕ → α
  u : ℕ → β
  calls : ℕ
  completed : Bool

/-- The receding-horizon loop of `MPC.solve` (mpc_class.py lines
498-577).  The external NLP solver together with the first-step control
extraction (lines 532-554) is abstracted as `step`, a function of the
real-time index and the current measured state; the plant simulator
`model.sim` (line 566) is abstracted as `sim`, returning `none` when it
raises the `RuntimeError` instability failure.  Each iteration issues one
solver call, writes `u[t]`, then simulates; on simulator failure the loop
returns the histories accumulated so far (the `except RuntimeError`
handler), otherwise it writes `mean[t+1]` and continues. -/
def solveLoop {α β : Type} (sim : ℕ → α → β → Option α)
    (step : ℕ → α → β) :
    ℕ → ℕ → (ℕ → α) → (ℕ → β) → ℕ → SolveResult α β
  | 0, _, mean, u, calls => ⟨mean, u, calls, true⟩
  | n + 1, t, mean, u, calls =>
      let uT := step t (mean t)
      let uNew := Function.update u t uT
      match sim t (mean t) uT with
      | some x =>
          solveLoop sim step n (t + 1) (Function.update mean (t + 1) x)
            uNew (calls + 1)
      | none => ⟨mean, uNew, calls + 1, false⟩

/-- `MPC.solve` (lines 414-577): the histories are pre-allocated with
`np.full`, filled with `x0` and `u0` (lines 450-453), and the loop runs
for `Nsim` real-time steps. -/
def solve {α β : Type} (sim : ℕ → α → β → Option α) (step : ℕ → α → β)
    (Nsim : ℕ) (x0 : α) (u0 : β) : SolveResult α β :=
  solveLoop sim step Nsim 0 (fun _ => x0) (fun _ => u0) 0

/-- The realized closed-loop trajectory: `traj sim step t0 x j` is the
state reached after `j` successful simulation steps starting from state
`x` at real-time index `t0`, and `none` once the simulator has reported
instability. -/
def traj {α β : Type} (sim : ℕ → α → β → Option α) (step : ℕ → α → β)
    (t0 : ℕ) (x : α) : ℕ → Option α
  | 0 => some x
  | j + 1 =>
      (traj sim step t0 x j).bind fun y => sim (t0 + j) y (step (t0 + j) y)

/- ------------------------------------------------------------------ -/
/- Helper lemmas                                                       -/
/- ------------------------------------------------------------------ -/

theorem foldl_append_eq {α β : Type} (f : α → List β) :
    ∀ (l : List α) (init : List β),
      l.foldl (fun acc a => acc ++ f a) init = init ++ l.flatMap f
  | [], init => by simp
  | a :: l, init => by
      rw [List.foldl_cons, foldl_append_eq f l (init ++ f a)]
      simp

theorem selectPredict_eq_none {Ny Nu : ℕ} (b : GPBase Ny Nu) (m : String)
    (h : gpMethodKnown m = false) : selectPredict b m = none := by
  simp only [gpMethodKnown, Bool.or_eq_false_iff, decide_eq_false_iff_not] at h
  obtain ⟨⟨⟨⟨h1, h2⟩, h3⟩, h4⟩, h5⟩ := h
  simp [selectPredict, h1, h2, h3, h4, h5]

/- ------------------------------------------------------------------ -/
/- Concrete instances used by witnesses and counterexamples            -/
/- ------------------------------------------------------------------ -/

/-- A concrete GP data bundle with nontrivial standardization
statistics, standing in for a trained model. -/
def exBase : GPBase 1 1 where
  meanY := fun _ => 3
  stdY := fun _ => 2
  normalize := true
  meanFun := fun x _ => x
  covarFun := fun _ _ => 1
  taCovar := fun _ _ _ => 1
  emPredict := fun x _ _ => (x, 1)
  oldMePredict := fun x _ _ => (x, 1)
  oldTaPredict := fun x _ _ => (x, 1)

/-- `exBase` with normalization disabled. -/
def exBaseRaw : GPBase 1 1 :=
  { exBase with normalize := false }

/-- A concrete constructed GP with a nontrivial selected prediction
function. -/
def exGP : GP 1 1 :=
  ⟨exBase, "ME", fun x u _ => (fun i => x i + u i, 1)⟩

/-- `exGP` over the non-normalizing base. -/
def exGPRaw : GP 1 1 :=
  ⟨exBaseRaw, "ME", fun x u _ => (fun i => x i + u i, 1)⟩

/- ------------------------------------------------------------------ -/
/- C10: standardization round trip                                     -/
/- ------------------------------------------------------------------ -/

/-- C10 (confirmed): for every target vector `Y`, when every per-output
training standard deviation is nonzero, `inverse_mean (standardize Y) = Y`
exactly (the de-standardization `Y·std + mean` inverts the
standardization `(Y − mean)/std`). -/
theorem standardize_round_trip {Ny Nu : ℕ} (b : GPBase Ny Nu) (Y : Vec Ny)
    (h : ∀ i, b.stdY i ≠ 0) : inverse_mean b (standardize b Y) = Y := by
  funext i
  simp only [inverse_mean, standardize]
  rw [div_mul_cancel₀ _ (h i), sub_add_cancel]

/-- Witness for C10 at a concrete model and target. -/
theorem standardize_round_trip_witness :
    inverse_mean exBase (standardize exBase fun _ => 7) = fun _ => 7 :=
  standardize_round_trip exBase (fun _ => 7) (by decide)

/- ------------------------------------------------------------------ -/
/- C5: GP.predict normalization wrapping                               -/
/- ------------------------------------------------------------------ -/

/-- C5 (confirmed): with normalization enabled, `GP.predict`
standardizes the state, evaluates the selected prediction function on the
standardized state, de-standardizes the returned mean with
`inverse_mean`, and returns the predicted covariance unchanged (the
covariance de-standardization is the identity); with normalization
disabled it evaluates the prediction function directly with no
transforms. -/
theorem predict_normalization {Ny Nu : ℕ} (g : GP Ny Nu) (x : Vec Ny)
    (u : Vec Nu) (cov : CovFull Ny Nu) :
    (g.base.normalize = true →
      GP.predict g x u cov =
        (inverse_mean g.base (g.predictFun (standardize g.base x) u cov).1,
         (g.predictFun (standardize g.base x) u cov).2)) ∧
    (g.base.normalize = false →
      GP.predict g x u cov = g.predictFun x u cov) := by
  constructor <;> intro h <;> simp [GP.predict, h, inverse_covariance]

/-- Witness for C5: both normalization branches at concrete models. -/
theorem predict_normalization_witness :
    (GP.predict exGP (fun _ => 7) (fun _ => 1) 0 =
      (inverse_mean exGP.base
        (exGP.predictFun (standardize exGP.base fun _ => 7) (fun _ => 1) 0).1,
       (exGP.predictFun (standardize exGP.base fun _ => 7) (fun _ => 1) 0).2)) ∧
    (GP.predict exGPRaw (fun _ => 7) (fun _ => 1) 0 =
      exGPRaw.predictFun (fun _ => 7) (fun _ => 1) 0) :=
  ⟨(predict_normalization exGP (fun _ => 7) (fun _ => 1) 0).1 rfl,
   (predict_normalization exGPRaw (fun _ => 7) (fun _ => 1) 0).2 rfl⟩

/- ------------------------------------------------------------------ -/
/- C7: unknown variant / cost names fail fast                          -/
/- ------------------------------------------------------------------ -/

/-- C7 (confirmed): an unrecognized prediction-variant name makes
`GP.set_method` report `NameError` naming the offending value while
keeping the previously installed prediction function (none is installed
for the unknown name), makes GP construction fail with the same error
producing no object, and an unrecognized cost-function name makes the
MPC construction dispatch fail with `NameError` naming the value (once
construction reaches the cost dispatch, i.e. the earlier GP-method and
solver-option stages pass). -/
theorem unknown_name_fails_fast {Ny Nu : ℕ} (g : GP Ny Nu)
    (b : GPBase Ny Nu) (m costFunc discrete_method gp_method : String)
    (solver_opts : Option (List (String × Bool))) :
    (gpMethodKnown m = false →
      set_method g m =
        ({ g with gp_method := m }, some ("No GP method called: " ++ m))) ∧
    (gpMethodKnown m = false →
      gpInit b m = .error ("No GP method called: " ++ m)) ∧
    (costFunc ≠ "quad" → costFunc ≠ "sat" →
      set_cost_function costFunc =
        .error ("No cost function called: " ++ costFunc)) ∧
    (gpGate discrete_method gp_method = .ok () →
      expandGate discrete_method solver_opts = .ok () →
      costFunc ≠ "quad" → costFunc ≠ "sat" →
      mpcInitChecks discrete_method gp_method costFunc solver_opts =
        .error ("No cost function called: " ++ costFunc)) := by
  refine ⟨fun h => ?_, fun h => ?_, fun h1 h2 => ?_, fun hg he h1 h2 => ?_⟩
  · unfold set_method
    rw [selectPredict_eq_none g.base m h]
  · unfold gpInit
    rw [selectPredict_eq_none b m h]
  · simp [set_cost_function, h1, h2]
  · rw [mpcInitChecks, hg, he]
    simp [set_cost_function, h1, h2]

/-- Witness for C7 at concrete unknown names. -/
theorem unknown_name_fails_fast_witness :
    (set_method exGP "foo" =
      ({ exGP with gp_method := "foo" },
       some ("No GP method called: " ++ "foo"))) ∧
    (gpInit exBase "foo" = .error ("No GP method called: " ++ "foo")) ∧
    (set_cost_function "bar" =
      .error ("No cost function called: " ++ "bar")) ∧
    (mpcInitChecks "gp" "TA" "bar" (some [("expand", false)]) =
      .error ("No cost function called: " ++ "bar")) := by
  obtain ⟨h1, h2, h3, h4⟩ :=
    unknown_name_fails_fast exGP exBase "foo" "bar" "gp" "TA"
      (some [("expand", false)])
  exact ⟨h1 (by decide), h2 (by decide), h3 (by decide) (by decide),
         h4 rfl rfl (by decide) (by decide)⟩

/- ------------------------------------------------------------------ -/
/- C9: the unconditional solver_opts read                              -/
/- ------------------------------------------------------------------ -/

/-- C9 (confirmed): when `solver_opts` is the default `None` — or any
mapping lacking the `expand` key — MPC construction raises before a
solver object can be created, for every `discrete_method`, `gp_method`
and cost-function name, because `solver_opts['expand']` is read
unconditionally; the construction check sequence never reaches `.ok`. -/
theorem missing_expand_key_raises (discrete_method gp_method costFunc : String)
    (solver_opts : Option (List (String × Bool)))
    (h : ∀ opts, solver_opts = some opts → opts.lookup "expand" = none) :
    ∃ e, mpcInitChecks discrete_method gp_method costFunc solver_opts =
      .error e := by
  have hre : readExpand solver_opts = .error
      (match solver_opts with
       | none => "TypeError: NoneType object is not subscriptable"
       | some _ => "KeyError: expand") := by
    cases solver_opts with
    | none => rfl
    | some opts => simp [readExpand, h opts rfl]
  rw [mpcInitChecks]
  cases hg : gpGate discrete_method gp_method with
  | error e => exact ⟨e, rfl⟩
  | ok _ =>
      rw [expandGate, hre]
      exact ⟨_, rfl⟩

/-- Witness for C9: default `solver_opts=None` on the default
`gp`/`quad` configuration. -/
theorem missing_expand_key_raises_witness :
    ∃ e, mpcInitChecks "gp" "TA" "quad" none = .error e :=
  missing_expand_key_raises "gp" "TA" "quad" none (fun _ h => nomatch h)

/- ------------------------------------------------------------------ -/
/- C4: abort on plant-simulation instability                           -/
/- ------------------------------------------------------------------ -/

theorem traj_shift {α β : Type} (sim : ℕ → α → β → Option α)
    (step : ℕ → α → β) (t0 : ℕ) (x x1 : α)
    (h : sim t0 x (step t0 x) = some x1) :
    ∀ j, traj sim step t0 x (j + 1) = traj sim step (t0 + 1) x1 j
  | 0 => by simp [traj, h]
  | j + 1 => by
      have ih := traj_shift sim step t0 x x1 h j
      show (traj sim step t0 x (j + 1)).bind _ = (traj sim step (t0 + 1) x1 j).bind _
      rw [ih]
      have e : t0 + (j + 1) = t0 + 1 + j := by omega
      rw [e]

theorem solveLoop_abort {α β : Type} (sim : ℕ → α → β → Option α)
    (step : ℕ → α → β) :
    ∀ (k n t : ℕ) (mean : ℕ → α) (u : ℕ → β) (calls : ℕ),
      k < n →
      (∀ j, j ≤ k → (traj sim step t (mean t) j).isSome) →
      traj sim step t (mean t) (k + 1) = none →
      ∃ mean2 u2,
        solveLoop sim step n t mean u calls =
          ⟨mean2, u2, calls + (k + 1), false⟩ ∧
        (∀ i, i ≤ k → some (mean2 (t + i)) = traj sim step t (mean t) i) ∧
        (∀ i, i < t ∨ t + k < i → mean2 i = mean i) ∧
        (∀ i, i ≤ k → u2 (t + i) = step (t + i) (mean2 (t + i))) ∧
        (∀ i, i < t ∨ t + k < i → u2 i = u i) := by
  intro k
  induction k with
  | zero =>
      intro n t mean u calls hn _ habort
      obtain ⟨m, rfl⟩ : ∃ m, n = m + 1 := ⟨n - 1, by omega⟩
      have hsim : sim t (mean t) (step t (mean t)) = none := by
        simpa [traj] using habort
      refine ⟨mean, Function.update u t (step t (mean t)), ?_, ?_, ?_, ?_, ?_⟩
      · simp [solveLoop, hsim]
      · intro i hi
        interval_cases i
        simp [traj]
      · intro i _
        rfl
      · intro i hi
        interval_cases i
        simp
      · intro i hi
        have : i ≠ t := by omega
        simp [Function.update_apply, this]
  | succ k ih =>
      intro n t mean u calls hn hall habort
      obtain ⟨m, rfl⟩ : ∃ m, n = m + 1 := ⟨n - 1, by omega⟩
      have h1 := hall 1 (by omega)
      have h1e : traj sim step t (mean t) 1 =
          sim t (mean t) (step t (mean t)) := by
        simp [traj]
      rw [h1e] at h1
      obtain ⟨x1, hx1⟩ := Option.isSome_iff_exists.mp h1
      have hshift := traj_shift sim step t (mean t) x1 hx1
      have hstep : solveLoop sim step (m + 1) t mean u calls =
          solveLoop sim step m (t + 1) (Function.update mean (t + 1) x1)
            (Function.update u t (step t (mean t))) (calls + 1) := by
        simp [solveLoop, hx1]
      have hupd : Function.update mean (t + 1) x1 (t + 1) = x1 := by simp
      obtain ⟨mean2, u2, heq, hm1, hm2, hu1, hu2⟩ :=
        ih m (t + 1) (Function.update mean (t + 1) x1)
          (Function.update u t (step t (mean t))) (calls + 1)
          (by omega)
          (by
            intro j hj
            rw [hupd, ← hshift j]
            exact hall (j + 1) (by omega))
          (by
            rw [hupd, ← hshift (k + 1)]
            exact habort)
      have hmt : mean2 t = mean t := by
        have := hm2 t (Or.inl (by omega))
        rw [this, Function.update_apply, if_neg (by omega)]
      refine ⟨mean2, u2, ?_, ?_, ?_, ?_, ?_⟩
      · rw [hstep, heq]
        have : calls + 1 + (k + 1) = calls + (k + 1 + 1) := by omega
        rw [this]
      · intro i hi
        match i with
        | 0 => simpa [traj] using congrArg some hmt
        | j + 1 =>
            have e : t + (j + 1) = t + 1 + j := by omega
            rw [e, hm1 j (by omega), hupd, ← hshift j]
      · intro i hi
        have hne : i ≠ t + 1 := by omega
        have := hm2 i (by omega)
        rw [this, Function.update_apply, if_neg hne]
      · intro i hi
        match i with
        | 0 =>
            have h0 := hu2 t (Or.inl (by omega))
            have : (t : ℕ) + 0 = t := by omega
            rw [this, h0, Function.update_apply, if_pos rfl, hmt]
        | j + 1 =>
            have e : t + (j + 1) = t + 1 + j := by omega
            rw [e]
            exact hu1 j (by omega)
      · intro i hi
        have hne : i ≠ t := by omega
        have := hu2 i (by omega)
        rw [this, Function.update_apply, if_neg hne]

/-- C4 (confirmed): if the plant simulator first reports an instability
failure at real-time step `k < Nsim` (the `RuntimeError` raised by
`model.sim`, modelled by `sim` returning `none`), `MPC.solve` returns —
no exception propagates, `solve` is total and the `completed` flag
records the aborted path — with exactly `k+1` NLP-solver calls issued
(one per step `0..k`, none after the failing simulation step), the
realized states for steps `0..k` (the partial trajectory accumulated so
far), and every history entry past step `k` still holding its
pre-allocated initialization value: the history is truncated at exactly
step `k`. -/
theorem solve_aborts_on_instability {α β : Type}
    (sim : ℕ → α → β → Option α) (step : ℕ → α → β) (Nsim k : ℕ)
    (x0 : α) (u0 : β) (hk : k < Nsim)
    (hsucc : ∀ j, j ≤ k → (traj sim step 0 x0 j).isSome)
    (hfail : traj sim step 0 x0 (k + 1) = none) :
    ∃ mean2 u2,
      solve sim step Nsim x0 u0 = ⟨mean2, u2, k + 1, false⟩ ∧
      (∀ i, i ≤ k → some (mean2 i) = traj sim step 0 x0 i) ∧
      (∀ i, k < i → mean2 i = x0) ∧
      (∀ i, i ≤ k → u2 i = step i (mean2 i)) ∧
      (∀ i, k < i → u2 i = u0) := by
  obtain ⟨mean2, u2, heq, hm1, hm2, hu1, hu2⟩ :=
    solveLoop_abort sim step k Nsim 0 (fun _ => x0) (fun _ => u0) 0 hk
      hsucc hfail
  refine ⟨mean2, u2, ?_, ?_, ?_, ?_, ?_⟩
  · simpa [solve] using heq
  · intro i hi
    simpa using hm1 i hi
  · intro i hi
    exact hm2 i (Or.inr (by omega))
  · intro i hi
    simpa using hu1 i hi
  · intro i hi
    exact hu2 i (Or.inr (by omega))

/-- A plant-simulation stub that reports instability at real-time step
2 and integrates `x + u` elsewhere. -/
def exSim : ℕ → ℚ → ℚ → Option ℚ :=
  fun t x u => if t = 2 then none else some (x + u)

/-- A stubbed solver/extract collaborator applying a unit control. -/
def exStep : ℕ → ℚ → ℚ :=
  fun _ _ => 1

/-- Witness for C4: with the simulator stubbed to report instability at
step 2, a 5-step run returns with exactly 3 solver calls and the history
truncated at step 2. -/
theorem solve_aborts_on_instability_witness :
    ∃ mean2 u2,
      solve exSim exStep 5 0 0 = ⟨mean2, u2, 2 + 1, false⟩ ∧
      (∀ i, i ≤ 2 → some (mean2 i) = traj exSim exStep 0 0 i) ∧
      (∀ i, 2 < i → mean2 i = 0) ∧
      (∀ i, i ≤ 2 → u2 i = exStep i (mean2 i)) ∧
      (∀ i, 2 < i → u2 i = 0) :=
  solve_aborts_on_instability exSim exStep 5 2 0 0 (by omega)
    (by decide) (by decide)

/- ------------------------------------------------------------------ -/
/- More helper lemmas                                                  -/
/- ------------------------------------------------------------------ -/

theorem foldl_append2_eq {α β : Type} (f g : α → List β) :
    ∀ (l : List α) (init : List β),
      l.foldl (fun acc a => acc ++ f a ++ g a) init =
        init ++ l.flatMap fun a => f a ++ g a
  | [], init => by simp
  | a :: l, init => by
      rw [List.foldl_cons, foldl_append2_eq f g l (init ++ f a ++ g a)]
      simp

theorem sum_one_row {Ny : ℕ} (i : Fin Ny) (f : Fin Ny → ℚ) :
    (∑ j, (1 : Cov Ny) i j * f j) = f i := by
  simp [Matrix.one_apply, ite_mul, Finset.sum_ite_eq]

theorem con_func_one {Ny : ℕ} (mean : Vec Ny) (S : Cov Ny) (i : Fin Ny)
    (r : ℚ) : con_func mean S ((1 : Cov Ny) i) r = mean i + r * S i i := by
  unfold con_func
  rw [sum_one_row i mean, sum_one_row i fun j => S j j]

theorem lowerMat_diag {n : ℕ} (M : Cov n) (i : Fin n) :
    lowerMat M i i = M i i := by
  simp [lowerMat]

theorem constraint_closed {Ny : ℕ} (mean : Vec Ny) (S : Cov Ny)
    (quantile ub lb : Vec Ny) :
    constraint mean S 1 quantile ub lb =
      (List.finRange Ny).flatMap fun i =>
        [(mean i + quantile i * S i i, none, some (ub i)),
         (mean i - quantile i * S i i, some (lb i), none)] := by
  unfold constraint
  rw [foldl_append_eq
    (fun i => [(con_func mean S ((1 : Cov Ny) i) (quantile i), none, some (ub i)),
               (con_func mean S ((1 : Cov Ny) i) (-quantile i), some (lb i), none)])
    (List.finRange Ny) []]
  rw [List.nil_append]
  congr 1
  funext i
  rw [con_func_one mean S i (quantile i), con_func_one mean S i (-(quantile i))]
  rw [neg_mul, ← sub_eq_add_neg]

theorem objFold_eq {Ny Nu : ℕ} (V : Vars Ny Nu) (p : Params Ny Nu)
    (Q : Cov Ny) (R S : Cov Nu) (lam : ℚ) (fb : Bool) :
    ∀ (l : List ℕ) (a : ℚ) (w : Vec Nu),
      l.foldl (objStep V p Q R S lam fb) (a, w) =
        (a + (l.map fun t =>
            cost_l (V.mean t) p.meanRef (L_to_cov (lowerMat (V.L t)))
              (u_func fb p.K (V.mean t) (V.v t))
              (covar_u_func p.K (L_to_cov (lowerMat (V.L t))))
              (u_func fb p.K (V.mean t) (V.v t) - w) Q R S
            + lam * V.eps t).sum, w)
  | [], a, w => by simp
  | t :: l, a, w => by
      rw [List.foldl_cons]
      rw [show objStep V p Q R S lam fb (a, w) t =
        (a + cost_l (V.mean t) p.meanRef (L_to_cov (lowerMat (V.L t)))
              (u_func fb p.K (V.mean t) (V.v t))
              (covar_u_func p.K (L_to_cov (lowerMat (V.L t))))
              (u_func fb p.K (V.mean t) (V.v t) - w) Q R S
            + lam * V.eps t, w) from rfl]
      rw [objFold_eq V p Q R S lam fb l _ w]
      rw [List.map_cons, List.sum_cons]
      refine congrArg₂ Prod.mk ?_ rfl
      ring

/- ------------------------------------------------------------------ -/
/- C1: chance-constraint structure and uncertainty margin              -/
/- ------------------------------------------------------------------ -/

/-- The per-step chance-constraint block as claim C1 states it: the
uncertainty margin taken from the diagonal of the covariance
reconstructed from the step's Cholesky factor, `diag(L·Lᵀ)`.  Stated
from the claim text, for comparison with the block the code builds. -/
def constraintSpec {Ny : ℕ} (mean : Vec Ny) (L : Cov Ny)
    (quantile ub lb : Vec Ny) : List ConRow :=
  (List.finRange Ny).flatMap fun i =>
    [(mean i + quantile i * L_to_cov (lowerMat L) i i, none, some (ub i)),
     (mean i - quantile i * L_to_cov (lowerMat L) i i, some (lb i), none)]

/-- Decision variables for the C1 counterexample: `Ny = 2`, `Nu = 1`,
with a non-diagonal Cholesky factor at step 1. -/
def exV1 : Vars 2 1 where
  mean := fun _ => fun _ => 0
  covariance := fun _ => 0
  L := fun t => Matrix.of fun i j =>
    if t = 1 ∧ (j : ℕ) ≤ (i : ℕ) then 1 else 0
  v := fun _ => fun _ => 0
  eps := fun _ => 0

/-- Parameters for the C1 counterexample. -/
def exP1 : Params 2 1 where
  mean0 := fun _ => 0
  meanRef := fun _ => 0
  covariance0 := 0
  u0 := fun _ => 0
  K := 0
  P := 1

/-- C1 counterexample: with the step-1 Cholesky factor
`L = [[1,0],[1,1]]`, the inequality-constraint list the construction
builds differs from the list the claim describes — the code's margin for
dimension 1 is `z·L₁₁ = 1` while `z·diag(L·Lᵀ)₁ = 2` — so the claimed
`diag(L·Lᵀ)` margin (and its agreement with a direct covariance-diagonal
computation) fails on the code. -/
theorem chance_margin_counterexample :
    conIneqLoop exV1 exP1 (fun _ => 1) (fun _ => 10) (fun _ => -10)
        (fun _ => 10) (fun _ => -10) true 1 ≠
      (List.range 1).flatMap fun t =>
        constraintSpec (exV1.mean (t + 1)) (exV1.L (t + 1))
          (fun _ => 1) (fun _ => 10) (fun _ => -10)
        ++ inputBlock (u_func true exP1.K (exV1.mean t) (exV1.v t))
            (fun _ => 10) (fun _ => -10) := by
  intro h
  unfold conIneqLoop constraintSpec at h
  rw [show List.range 1 = [0] from rfl] at h
  rw [List.foldl_cons, List.foldl_nil, List.nil_append,
    constraint_closed] at h
  simp only [List.flatMap_cons, List.flatMap_nil, List.append_nil] at h
  rw [List.append_left_inj] at h
  rw [show List.finRange 2 = [0, 1] from rfl] at h
  simp only [List.flatMap_cons, List.flatMap_nil, List.append_nil,
    List.cons_append, List.nil_append, List.cons.injEq, Prod.mk.injEq] at h
  have h11 : exV1.mean 1 1 + 1 * lowerMat (exV1.L 1) 1 1 =
      exV1.mean 1 1 + 1 * L_to_cov (lowerMat (exV1.L 1)) 1 1 :=
    h.2.2.1.1
  have hL : lowerMat (exV1.L 1) 1 1 = 1 := by
    simp [lowerMat, exV1]
  have hLL : L_to_cov (lowerMat (exV1.L 1)) 1 1 = 2 := by
    simp [L_to_cov, lowerMat, exV1, Matrix.mul_apply, Matrix.transpose_apply,
      Fin.sum_univ_two]
    norm_num
  rw [hL, hLL] at h11
  have hm : exV1.mean 1 1 = 0 := rfl
  rw [hm] at h11
  norm_num at h11

/-- C1 (corrected, amended): in the NLP built at MPC construction, for
every horizon step `t` and every state dimension `i`, exactly two
one-sided chance constraints on the state mean are added — upper tail
`H_i·mean_{t+1} + z_i·L_ii ≤ xub_i` and lower tail
`H_i·mean_{t+1} − z_i·L_ii ≥ xlb_i`, with `H` the identity and `z` the
quantile vector built from the inverse normal CDF at the fixed 0.95
level (an external scipy value, here an arbitrary parameter) — where the
uncertainty margin uses the diagonal entries of that step's
lower-triangular Cholesky factor `L` itself (the matrix passed to the
constraint builder at line 325), not the diagonal of the reconstructed
covariance `L·Lᵀ`; the two agree only when `L` is diagonal. -/
theorem chance_margin_uses_cholesky_diag {Ny Nu : ℕ} (V : Vars Ny Nu)
    (p : Params Ny Nu) (quantile xub xlb : Vec Ny) (uub ulb : Vec Nu)
    (feedback : Bool) (Nt : ℕ) :
    conIneqLoop V p quantile xub xlb uub ulb feedback Nt =
      (List.range Nt).flatMap fun t =>
        ((List.finRange Ny).flatMap fun i =>
          [(V.mean (t + 1) i + quantile i * V.L (t + 1) i i,
              none, some (xub i)),
           (V.mean (t + 1) i - quantile i * V.L (t + 1) i i,
              some (xlb i), none)])
        ++ inputBlock (u_func feedback p.K (V.mean t) (V.v t)) uub ulb := by
  unfold conIneqLoop
  rw [foldl_append2_eq
    (fun t => constraint (V.mean (t + 1)) (lowerMat (V.L (t + 1))) 1
                quantile xub xlb)
    (fun t => inputBlock (u_func feedback p.K (V.mean t) (V.v t)) uub ulb)
    (List.range Nt) []]
  rw [List.nil_append]
  congr 1
  funext t
  congr 1
  rw [constraint_closed]
  congr 1
  funext i
  rw [lowerMat_diag]

/- ------------------------------------------------------------------ -/
/- C2 and C3: the quad objective                                       -/
/- ------------------------------------------------------------------ -/

/-- Decision variables for the C2 counterexample: the raw covariance
variable at the final step differs from the Cholesky-reconstructed
covariance there. -/
def exV2 : Vars 1 1 where
  mean := fun _ => fun _ => 0
  covariance := fun _ => 1
  L := fun _ => 0
  v := fun _ => fun _ => 0
  eps := fun _ => 0

/-- Parameters for the C2 counterexample. -/
def exP2 : Params 1 1 where
  mean0 := fun _ => 0
  meanRef := fun _ => 0
  covariance0 := 0
  u0 := fun _ => 0
  K := 0
  P := 1

/-- C2 counterexample: at an assignment where the raw covariance
decision variable at the final step is the identity while the final-step
Cholesky factor is zero, the objective the code builds (terminal trace
over `var['covariance', Nt]`, line 360) differs from the claimed
objective (terminal trace over the tracked covariance `L_Nt·L_Ntᵀ`):
`1 ≠ 0`. -/
theorem quad_objective_terminal_counterexample :
    objQuad exV2 exP2 1 1 1 1000 true 1 ≠
      objQuadSpec exV2 exP2 1 1 1 1000 true 1 := by
  unfold objQuad objQuadSpec
  have hzero : exV2.mean 1 - exP2.meanRef = 0 := by
    funext i
    simp [exV2, exP2]
  have h1 : cost_lf (exV2.mean 1) exP2.meanRef (exV2.covariance 1) exP2.P
      = 1 := by
    rw [cost_lf, hzero]
    simp [sqnorm, exV2, exP2, Matrix.trace_one]
  have hL0 : lowerMat (exV2.L 1) = 0 := by
    ext i j
    simp [lowerMat, exV2]
  have h2 : cost_lf (exV2.mean 1) exP2.meanRef
      (L_to_cov (lowerMat (exV2.L 1))) exP2.P = 0 := by
    rw [cost_lf, hzero, hL0]
    simp [sqnorm, L_to_cov, exP2]
  rw [h1, h2]
  intro hEq
  exact one_ne_zero (add_left_cancel hEq)

/-- C2 (corrected, amended): with the `quad` cost variant, the NLP
objective equals the sum over horizon stages `t` of
`(x_t−x_ref)ᵀQ(x_t−x_ref) + u_tᵀRu_t + Δu_tᵀSΔu_t + tr(Q·covar_x_t)
+ tr(R·covar_u_t)` plus the slack penalty `λ·eps_t` — where `covar_x_t =
L_t·L_tᵀ` is the state covariance tracked along the horizon trajectory
and `covar_u_t = K·covar_x_t·Kᵀ` — plus the terminal cost
`(x_Nt−x_ref)ᵀP(x_Nt−x_ref) + tr(P·covar_x_Nt)` in which `covar_x_Nt` is
the separate raw covariance decision variable at step `Nt` (tied to the
Cholesky-tracked trajectory only through the step-0 initial-condition
constraint), not the reconstruction `L_Nt·L_Ntᵀ`. -/
theorem quad_objective_closed_form {Ny Nu : ℕ} (V : Vars Ny Nu)
    (p : Params Ny Nu) (Q : Cov Ny) (R S : Cov Nu) (lam : ℚ) (fb : Bool)
    (Nt : ℕ) :
    objQuad V p Q R S lam fb Nt =
      ((List.range Nt).map fun t =>
        cost_l (V.mean t) p.meanRef (L_to_cov (lowerMat (V.L t)))
          (u_func fb p.K (V.mean t) (V.v t))
          (covar_u_func p.K (L_to_cov (lowerMat (V.L t))))
          (u_func fb p.K (V.mean t) (V.v t) - p.u0) Q R S
        + lam * V.eps t).sum
      + cost_lf (V.mean Nt) p.meanRef (V.covariance Nt) p.P := by
  unfold objQuad
  rw [objFold_eq V p Q R S lam fb (List.range Nt) 0 p.u0]
  rw [zero_add]

/-- C3 (confirmed): in the `quad` stage cost, the loop-carried
previous-input value entering every stage `t` still equals the `u_0`
parameter — it is initialized to `u_0` before the loop and never advanced
(the loop's final statement rebinds the local `u_t`, not `u_past`) — so
the input-rate difference penalized at stage `t` is `u_t − u_0`, not
`u_t − u_{t−1}`. -/
theorem delta_u_is_u_minus_u0 {Ny Nu : ℕ} (V : Vars Ny Nu)
    (p : Params Ny Nu) (Q : Cov Ny) (R S : Cov Nu) (lam : ℚ) (fb : Bool)
    (t : ℕ) :
    u_past_at V p Q R S lam fb t = p.u0 ∧
    u_delta_at V p Q R S lam fb t =
      u_func fb p.K (V.mean t) (V.v t) - p.u0 := by
  have h := objFold_eq V p Q R S lam fb (List.range t) 0 p.u0
  constructor
  · unfold u_past_at
    rw [h]
  · unfold u_delta_at u_past_at
    rw [h]

/- ------------------------------------------------------------------ -/
/- C6: continuity equality constraints                                 -/
/- ------------------------------------------------------------------ -/

/-- C6 (confirmed): the equality-constraint vector of the NLP carries
zero lower and upper bounds, and all its residuals vanish exactly when
the initial conditions hold and, for every horizon step `t < Nt`, the
transition model's predicted next mean equals the decision-variable mean
at step `t+1` and the predicted next covariance equals the covariance
reconstructed from the step-`(t+1)` lower-triangular Cholesky decision
variable as `L·Lᵀ`. -/
theorem continuity_constraints {Ny Nu : ℕ} (V : Vars Ny Nu)
    (p : Params Ny Nu) (predictF : PredFun Ny Nu) (fb : Bool) (Nt : ℕ) :
    conEqLbList V p predictF fb Nt = conEqUbList V p predictF fb Nt ∧
    conEqLbList V p predictF fb Nt =
      List.replicate (conEqList V p predictF fb Nt).length 0 ∧
    ((∀ r ∈ conEqList V p predictF fb Nt, r = 0) ↔
      (V.mean 0 = p.mean0 ∧ V.covariance 0 = p.covariance0 ∧
       ∀ t, t < Nt →
         (predictF (V.mean t) (u_func fb p.K (V.mean t) (V.v t))
            (covar_func (L_to_cov (lowerMat (V.L t))) p.K)).1 =
           V.mean (t + 1) ∧
         (predictF (V.mean t) (u_func fb p.K (V.mean t) (V.v t))
            (covar_func (L_to_cov (lowerMat (V.L t))) p.K)).2 =
           L_to_cov (lowerMat (V.L (t + 1))))) := by
  refine ⟨rfl, rfl, ?_⟩
  unfold conEqList
  rw [foldl_append2_eq
    (fun t => (List.finRange Ny).map fun i =>
      (predictF (V.mean t) (u_func fb p.K (V.mean t) (V.v t))
         (covar_func (L_to_cov (lowerMat (V.L t))) p.K)).1 i
        - V.mean (t + 1) i)
    (fun t => matEntries
      ((predictF (V.mean t) (u_func fb p.K (V.mean t) (V.v t))
         (covar_func (L_to_cov (lowerMat (V.L t))) p.K)).2
        - L_to_cov (lowerMat (V.L (t + 1)))))
    (List.range Nt)
    (((List.finRange Ny).map fun i => V.mean 0 i - p.mean0 i)
      ++ matEntries (V.covariance 0 - p.covariance0))]
  simp only [List.forall_mem_append, List.forall_mem_flatMap,
    List.forall_mem_map, List.mem_finRange, List.mem_range, matEntries,
    Matrix.sub_apply, sub_eq_zero, true_implies]
  constructor
  · rintro ⟨⟨hm0, hc0⟩, hsteps⟩
    refine ⟨funext hm0, ?_, fun t ht => ?_⟩
    · ext i j
      exact hc0 i j
    · obtain ⟨h1, h2⟩ := hsteps t ht
      refine ⟨funext h1, ?_⟩
      ext i j
      exact h2 i j
  · rintro ⟨hm0, hc0, hsteps⟩
    refine ⟨⟨fun i => congrFun hm0 i, fun i j => by rw [hc0]⟩,
      fun t ht => ?_⟩
    obtain ⟨h1, h2⟩ := hsteps t ht
    exact ⟨fun i => congrFun h1 i, fun i j => by rw [h2]⟩

/- ------------------------------------------------------------------ -/
/- C8: terminal constraint handling                                    -/
/- ------------------------------------------------------------------ -/

/-- C8 (confirmed): when no terminal constraint is supplied, no terminal
rows are appended to the inequality constraints (only the terminal cost
term applies); when a value `tc` is supplied, the appended rows hold
exactly when every component of the final-step mean lies within `±tc` of
the reference — a bounded two-sided inequality for nonzero `tc`, and
exact equality of the final mean with the reference when `tc = 0`. -/
theorem terminal_constraint_handling {Ny Nu : ℕ} (V : Vars Ny Nu)
    (p : Params Ny Nu) (quantile xub xlb : Vec Ny) (uub ulb : Vec Nu)
    (fb : Bool) (Nt : ℕ) :
    conIneqFull V p quantile xub xlb uub ulb fb Nt none =
      conIneqLoop V p quantile xub xlb uub ulb fb Nt ∧
    (∀ tc : ℚ,
      (∀ c ∈ terminalBlock V p.meanRef Nt (some tc), satCon c = true) ↔
        ∀ i, -tc ≤ V.mean Nt i - p.meanRef i ∧
          V.mean Nt i - p.meanRef i ≤ tc) ∧
    ((∀ c ∈ terminalBlock V p.meanRef Nt (some 0), satCon c = true) ↔
      V.mean Nt = p.meanRef) := by
  have hiff : ∀ tc : ℚ,
      (∀ c ∈ terminalBlock V p.meanRef Nt (some tc), satCon c = true) ↔
        ∀ i, -tc ≤ V.mean Nt i - p.meanRef i ∧
          V.mean Nt i - p.meanRef i ≤ tc := by
    intro tc
    simp [terminalBlock, satCon]
  refine ⟨by simp [conIneqFull, terminalBlock], hiff, ?_⟩
  rw [hiff 0]
  constructor
  · intro h
    funext i
    have hi := h i
    rw [neg_zero] at hi
    have : V.mean Nt i - p.meanRef i = 0 := le_antisymm hi.2 hi.1
    linarith [this]
  · intro h i
    rw [h]
    simp

end GPMPC
